import Mathlib

/-!
Verification of the custody/policy/scheduling core of the Solana agent-wallet
repository, as a shallow embedding in Lean 4.

Amounts (SOL) are modelled as rationals; calendar-day keys are strings
(`getTodayKey` reads the wall clock, which is external, so the day key is
passed as a parameter); the network and the filesystem are external, so a
submission outcome is passed in as an `Except` value and durable writes are
the in-memory maps themselves.  Each definition mirrors one function of the
source (`AgentWallet.ts`, `BaseAgent.ts`, `KeyManager.ts`, `SimulatedDex.ts`).
-/

/-! ## AgentWallet (src: AgentWallet.ts) -/

deriving instance DecidableEq for Except

inductive TxStatus where
  | pending
  | confirmed
  | failed
deriving DecidableEq, Repr

inductive TxType where
  | SOL_TRANSFER
  | SPL_TRANSFER
  | AIRDROP
  | CUSTOM
deriving DecidableEq, Repr

/-- `TransactionRecord` of `AgentWallet.ts` (fields used by `sendSOL`). -/
structure TransactionRecord where
  signature : String
  type : TxType
  amount : ℚ
  toAddr : String
  status : TxStatus
  error : Option String
deriving DecidableEq, Repr

/-- The mutable state of one `AgentWallet`: the two configured limits
(`0` means unlimited, as in the source), the persisted day→amount spend
ledger, and the in-memory transaction history. -/
structure Wallet where
  maxSpendPerTx : ℚ
  maxDailySpend : ℚ
  spendLedger : List (String × ℚ)
  txHistory : List TransactionRecord
deriving DecidableEq, Repr

/-- Lookup in the spend ledger, mirroring `Number(this.spendLedger[key] || 0)`. -/
def ledgerGet (l : List (String × ℚ)) (key : String) : ℚ :=
  match l.find? (fun p => p.1 = key) with
  | some p => p.2
  | none => 0

/-- Replace the entry for `key` by `v` (insert if absent), mirroring
`this.spendLedger[key] = v`. -/
def ledgerSet (l : List (String × ℚ)) (key : String) (v : ℚ) : List (String × ℚ) :=
  match l with
  | [] => [(key, v)]
  | p :: rest => if p.1 = key then (key, v) :: rest else p :: ledgerSet rest key v

namespace AgentWallet

/-- `AgentWallet.getTodaySpentFromLedger`, with the day key as a parameter. -/
def getTodaySpentFromLedger (w : Wallet) (today : String) : ℚ :=
  ledgerGet w.spendLedger today

/-- `AgentWallet.incrementTodaySpend` (the synchronous `saveSpendLedger`
write is the updated map itself). -/
def incrementTodaySpend (w : Wallet) (today : String) (amountSOL : ℚ) : Wallet :=
  { w with spendLedger :=
      ledgerSet w.spendLedger today (ledgerGet w.spendLedger today + amountSOL) }

/-- Errors thrown by `sendSOL`: the two policy rejections (thrown before any
network interaction) and a network/submission failure. -/
inductive SendErr where
  | perTxLimit
  | dailyLimit
  | network (msg : String)
deriving DecidableEq, Repr

/-- A `SendErr` that the spec calls a `PolicyError` (spend-limit violation). -/
def SendErr.isPolicy : SendErr → Bool
  | .perTxLimit => true
  | .dailyLimit => true
  | .network _ => false

/-- `AgentWallet.sendSOL`.  `submit` is the outcome of the external
`prepareTransfer`/`simulateAndSend` network step (a signature, or a thrown
error).  The result carries the returned value or thrown error, the wallet
state after the call, and the number of network invocations made. -/
def sendSOL (w : Wallet) (today : String) (toAddress : String) (amountSOL : ℚ)
    (submit : Except String String) : Except SendErr String × Wallet × Nat :=
  if w.maxSpendPerTx > 0 ∧ amountSOL > w.maxSpendPerTx then
    (Except.error SendErr.perTxLimit, w, 0)
  else if w.maxDailySpend > 0 ∧
      getTodaySpentFromLedger w today + amountSOL > w.maxDailySpend then
    (Except.error SendErr.dailyLimit, w, 0)
  else
    match submit with
    | Except.ok sig =>
        let record : TransactionRecord :=
          { signature := sig, type := TxType.SOL_TRANSFER, amount := amountSOL,
            toAddr := toAddress, status := TxStatus.confirmed, error := none }
        (Except.ok sig,
         incrementTodaySpend { w with txHistory := w.txHistory ++ [record] } today amountSOL,
         1)
    | Except.error msg =>
        let record : TransactionRecord :=
          { signature := "", type := TxType.SOL_TRANSFER, amount := amountSOL,
            toAddr := toAddress, status := TxStatus.failed, error := some msg }
        (Except.error (SendErr.network msg),
         { w with txHistory := w.txHistory ++ [record] },
         1)

/-- Run a list of transfers sequentially on one day, each with a successful
submission; `none` as soon as one throws. -/
def runTransfers (today toAddress : String) : Wallet → List ℚ → Option Wallet
  | w, [] => some w
  | w, a :: rest =>
      match sendSOL w today toAddress a (Except.ok "sig") with
      | (Except.ok _, w', _) => runTransfers today toAddress w' rest
      | (Except.error _, _, _) => none

/-- The retry loop of `AgentWallet.getSOLBalance`.  `conn i` is the outcome of
the `i`-th `connection.getBalance` attempt; the result carries the returned
balance or the surfaced error together with the list of back-off delays
(milliseconds) slept, in order.  `attempt` is the current value of the
`attempts` counter and `remaining` the number of loop iterations left. -/
def balanceLoop (conn : Nat → Except String ℚ) (lastErr : String) :
    Nat → Nat → Except String ℚ × List Nat
  | _, 0 => (Except.error lastErr, [])
  | attempt, remaining + 1 =>
      match conn attempt with
      | Except.ok v => (Except.ok v, [])
      | Except.error e =>
          let rest := balanceLoop conn e (attempt + 1) remaining
          (rest.1, 200 * 2 ^ attempt :: rest.2)

/-- `AgentWallet.getSOLBalance`: up to 3 attempts starting at `attempts = 0`
(`lastErr` starts as `null`, which can never surface since the loop body runs
at least once). -/
def getSOLBalance (conn : Nat → Except String ℚ) : Except String ℚ × List Nat :=
  balanceLoop conn "null" 0 3

end AgentWallet

/-! ## SimulatedDex (src: SimulatedDex.ts) -/

/-- The counters of one `SimulatedDex` instance. -/
structure DexState where
  totalBuyVolume : ℚ
  totalSellVolume : ℚ
  tradeCount : Nat
deriving DecidableEq, Repr

namespace SimulatedDex

/-- `SimulatedDex.sell`: records the sell and returns `null`.  The wrapped
wallet is threaded through so the statement can express that it is untouched;
the last component counts invocations of any wallet method (`getSOLBalance`,
`sendSOL`, ...), of which the source body makes none. -/
def sell (d : DexState) (w : Wallet) (amountSOL : ℚ) :
    Option String × DexState × Wallet × Nat :=
  (none,
   { d with totalSellVolume := d.totalSellVolume + amountSOL,
            tradeCount := d.tradeCount + 1 },
   w, 0)

/-- `SimulatedDex.getStats`. -/
def getStats (d : DexState) : Nat × ℚ × ℚ × ℚ :=
  (d.tradeCount, d.totalBuyVolume, d.totalSellVolume,
   d.totalBuyVolume - d.totalSellVolume)

end SimulatedDex

/-! ## BaseAgent decision loop (src: BaseAgent.ts) -/

inductive AgentState where
  | idle
  | thinking
  | acting
  | paused
  | stopped
deriving DecidableEq, Repr

/-- Events, both those emitted on the `EventEmitter` and those appended to the
`agent-events.log.jsonl` audit log (`logEvent`). -/
inductive Ev where
  | started
  | pausedEv
  | resumed
  | stoppedEv
  | cycle_start
  | balance_paused
  | actionEv
  | cycle_end
  | errorEv
deriving DecidableEq, Repr

/-- The mutable state of one `BaseAgent`: lifecycle state, cycle counter, the
configured cycle cap (`config.maxCycles || Infinity`; `none` = `Infinity`),
whether a `cycleTimer` is pending, and the two event streams (`emit` calls and
`logEvent` lines). -/
structure Agent where
  state : AgentState
  cycleCount : Nat
  maxCycles : Option Nat
  timerArmed : Bool
  emitted : List Ev
  logged : List Ev
deriving DecidableEq, Repr

/-- A fresh agent, as built by the `BaseAgent` constructor. -/
def initAgent (maxCycles : Option Nat) : Agent :=
  { state := AgentState.idle, cycleCount := 0, maxCycles := maxCycles,
    timerArmed := false, emitted := [], logged := [] }

/-- The external inputs consumed by one `runCycle` invocation: the
`MIN_BALANCE_SOL` configuration, the outcome of `wallet.getSOLBalance()`, and
the outcomes of the abstract `observe`/`think`/`act` hooks (`think` returns an
action or `null`; any of them may throw). -/
structure CycleEnv where
  minBalance : ℚ
  balance : Except String ℚ
  observeResult : Except String Unit
  thinkResult : Except String (Option Unit)
  actResult : Except String Unit

/-- A cycle environment in which nothing throws, the balance floor is unset
and `think` returns `null`. -/
def benignEnv : CycleEnv :=
  { minBalance := 0, balance := Except.ok 0, observeResult := Except.ok (),
    thinkResult := Except.ok none, actResult := Except.ok () }

namespace BaseAgent

/-- `this.cycleCount >= this.maxCycles` (always false for `Infinity`). -/
def cyclesExhausted (a : Agent) : Bool :=
  match a.maxCycles with
  | none => false
  | some k => a.cycleCount ≥ k

/-- `BaseAgent.stop`: clears the timer, enters `stopped`, emits and logs. -/
def stop (a : Agent) : Agent :=
  { a with timerArmed := false, state := AgentState.stopped,
           emitted := a.emitted ++ [Ev.stoppedEv],
           logged := a.logged ++ [Ev.stoppedEv] }

/-- `BaseAgent.scheduleNextCycle`. -/
def scheduleNextCycle (a : Agent) : Agent :=
  if a.state = AgentState.stopped ∨ a.state = AgentState.paused then a
  else if cyclesExhausted a then stop a
  else { a with timerArmed := true }

/-- `BaseAgent.start`: throws `"Agent is stopped, cannot restart"` on a
stopped agent, otherwise sets `idle`, emits/logs `started` and schedules. -/
def start (a : Agent) : Except String Agent :=
  if a.state = AgentState.stopped then
    Except.error "Agent is stopped, cannot restart"
  else
    Except.ok (scheduleNextCycle
      { a with state := AgentState.idle,
               emitted := a.emitted ++ [Ev.started],
               logged := a.logged ++ [Ev.started] })

/-- `BaseAgent.pause`: clears any pending timer and enters `paused`
unconditionally (there is no check of the current state in the source). -/
def pause (a : Agent) : Agent :=
  { a with timerArmed := false, state := AgentState.paused,
           emitted := a.emitted ++ [Ev.pausedEv],
           logged := a.logged ++ [Ev.pausedEv] }

/-- `BaseAgent.resume`: a no-op unless currently `paused`; otherwise back to
`idle` and re-arm the timer. -/
def resume (a : Agent) : Agent :=
  if a.state ≠ AgentState.paused then a
  else scheduleNextCycle
    { a with state := AgentState.idle,
             emitted := a.emitted ++ [Ev.resumed],
             logged := a.logged ++ [Ev.resumed] }

/-- The result of one `runCycle` call: the agent afterwards, plus whether the
`observe`, `think` and `act` hooks were invoked. -/
structure CycleResult where
  agent : Agent
  observeCalled : Bool
  thinkCalled : Bool
  actCalled : Bool
deriving DecidableEq, Repr

/-- The `catch` block of `runCycle`: emit/log `error`, back to `idle`,
then `scheduleNextCycle`. -/
def catchCycle (a : Agent) : Agent :=
  scheduleNextCycle
    { a with state := AgentState.idle,
             emitted := a.emitted ++ [Ev.errorEv],
             logged := a.logged ++ [Ev.errorEv] }

/-- The normal end of `runCycle`: back to `idle`, emit/log `cycle_end`,
then `scheduleNextCycle`. -/
def finishCycle (a : Agent) : Agent :=
  scheduleNextCycle
    { a with state := AgentState.idle,
             emitted := a.emitted ++ [Ev.cycle_end],
             logged := a.logged ++ [Ev.cycle_end] }

/-- `BaseAgent.runCycle`.  Guard, counter increment, `thinking`,
`cycle_start`; then the balance floor check (early `return` without
rescheduling when below the floor), the `observe`/`think`/`act` phases, and
the `cycle_end`/`catch` endings, both of which reschedule. -/
def runCycle (a : Agent) (env : CycleEnv) : CycleResult :=
  if a.state = AgentState.stopped ∨ a.state = AgentState.paused then
    ⟨a, false, false, false⟩
  else
    let a1 : Agent :=
      { a with cycleCount := a.cycleCount + 1, state := AgentState.thinking,
               emitted := a.emitted ++ [Ev.cycle_start],
               logged := a.logged ++ [Ev.cycle_start] }
    let afterFloor : Except Agent (Except String Agent) :=
      if env.minBalance > 0 then
        match env.balance with
        | Except.error e => Except.ok (Except.error e)
        | Except.ok b =>
            if b < env.minBalance then
              Except.error
                { a1 with state := AgentState.paused,
                          emitted := a1.emitted ++ [Ev.pausedEv],
                          logged := a1.logged ++ [Ev.balance_paused] }
            else Except.ok (Except.ok a1)
      else Except.ok (Except.ok a1)
    match afterFloor with
    | Except.error aPaused => ⟨aPaused, false, false, false⟩
    | Except.ok (Except.error _) => ⟨catchCycle a1, false, false, false⟩
    | Except.ok (Except.ok a1) =>
        match env.observeResult with
        | Except.error _ => ⟨catchCycle a1, true, false, false⟩
        | Except.ok _ =>
            match env.thinkResult with
            | Except.error _ => ⟨catchCycle a1, true, true, false⟩
            | Except.ok none => ⟨finishCycle a1, true, true, false⟩
            | Except.ok (some _) =>
                let a2 : Agent :=
                  { a1 with state := AgentState.acting,
                            emitted := a1.emitted ++ [Ev.actionEv],
                            logged := a1.logged ++ [Ev.actionEv] }
                match env.actResult with
                | Except.ok _ => ⟨finishCycle a2, true, true, true⟩
                | Except.error _ => ⟨catchCycle a2, true, true, true⟩

/-- The pending timer firing: the `setTimeout` callback runs `runCycle`; if no
timer is pending nothing happens. -/
def fire (env : CycleEnv) (a : Agent) : Agent :=
  if a.timerArmed then (runCycle { a with timerArmed := false } env).agent else a

/-- `n` timer firings in sequence under a fixed environment. -/
def fireN (env : CycleEnv) : Nat → Agent → Agent
  | 0, a => a
  | n + 1, a => fire env (fireN env n a)

end BaseAgent

/-! ## KeyManager (src: KeyManager.ts)

The AES-256-GCM cipher and SHA-256 hash live in Node's `crypto` library, not
in this repository, so they are abstracted as a `CryptoPrimitives` bundle
carrying the standard contract of a key-derivation hash plus an authenticated
cipher: decryption under the encryption key inverts encryption, decryption
under any other key fails tag verification, and the tag is 16 bytes
(`TAG_LENGTH`).  What is verified here is the repository's own composition:
key derivation in the constructor, the `iv(16) | authTag(16) | ciphertext`
file layout written by `storeKey`, and the slicing and error discipline of
`loadKey`. -/

/-- Abstract model of `crypto.createHash('sha256')` plus
`crypto.createCipheriv / createDecipheriv('aes-256-gcm', ...)`.
`encrypt key iv plain` returns `(ciphertext, authTag)`;
`decrypt key iv ciphertext tag` returns the plaintext or `none` when the
authentication tag does not verify. -/
structure CryptoPrimitives (K : Type) where
  sha256 : String → K
  encrypt : K → List Nat → List Nat → List Nat × List Nat
  decrypt : K → List Nat → List Nat → List Nat → Option (List Nat)
  tag_length : ∀ k iv p, ((encrypt k iv p).2).length = 16
  decrypt_encrypt : ∀ k iv p,
    decrypt k iv (encrypt k iv p).1 (encrypt k iv p).2 = some p
  auth_fails : ∀ k k' iv p, k ≠ k' →
    decrypt k' iv (encrypt k iv p).1 (encrypt k iv p).2 = none

/-- The durable `.agent-keys` directory: one encrypted blob per agentId
(metadata files are not modelled; no claim touches them). -/
def KeyDir : Type := List (String × List Nat)

/-- File lookup by agentId. -/
def dirGet (d : KeyDir) (agentId : String) : Option (List Nat) :=
  match d.find? (fun p => p.1 = agentId) with
  | some p => some p.2
  | none => none

/-- `fs.writeFileSync` of the blob for one agentId (overwrite or create). -/
def dirPut : KeyDir → String → List Nat → KeyDir
  | [], agentId, blob => [(agentId, blob)]
  | p :: rest, agentId, blob =>
      if p.1 = agentId then (agentId, blob) :: rest
      else p :: dirPut rest agentId blob

namespace KeyManager

/-- Errors thrown by `loadKey`: a missing key file, or the GCM
authentication-tag verification failure raised by `decipher.final()`
(the spec's `NotFoundError` / `IntegrityError`). -/
inductive KeyErr where
  | notFound
  | integrity
deriving DecidableEq, Repr

/-- The `KeyManager` constructor: derive the 32-byte encryption key from the
supplied secret with SHA-256. -/
def deriveEncryptionKey {K : Type} (C : CryptoPrimitives K) (secret : String) : K :=
  C.sha256 secret

/-- `KeyManager.storeKey`: encrypt the private material under the derived key
with a fresh `iv` (supplied by `crypto.randomBytes(16)`, hence a parameter
with a length hypothesis at use sites) and write `iv | authTag | ciphertext`. -/
def storeKey {K : Type} (C : CryptoPrimitives K) (key : K) (dir : KeyDir)
    (agentId : String) (iv privateKeyBytes : List Nat) : KeyDir :=
  let e := C.encrypt key iv privateKeyBytes
  dirPut dir agentId (iv ++ e.2 ++ e.1)

/-- `KeyManager.loadKey`: read the blob, slice `iv = [0,16)`,
`authTag = [16,32)`, `ciphertext = [32,..)`, decrypt and verify the tag. -/
def loadKey {K : Type} (C : CryptoPrimitives K) (key : K) (dir : KeyDir)
    (agentId : String) : Except KeyErr (List Nat) :=
  match dirGet dir agentId with
  | none => Except.error KeyErr.notFound
  | some stored =>
      let iv := stored.take 16
      let tag := (stored.drop 16).take 16
      let ciphertext := (stored.drop 16).drop 16
      match C.decrypt key iv ciphertext tag with
      | some plain => Except.ok plain
      | none => Except.error KeyErr.integrity

end KeyManager

/-- A toy instance of the cipher contract, used to instantiate the
round-trip theorems on concrete inputs: the ciphertext is the plaintext and
the 16-byte tag encodes the key. -/
def toyCrypto : CryptoPrimitives Nat where
  sha256 := String.length
  encrypt := fun k _ p => (p, k :: List.replicate 15 0)
  decrypt := fun k _ c tag => if tag = k :: List.replicate 15 0 then some c else none
  tag_length := fun _ _ _ => by simp
  decrypt_encrypt := fun _ _ _ => by simp
  auth_fails := fun k k' _ _ h => by simp [List.cons.injEq, h]

/-! ## Shared lemmas -/

theorem ledgerGet_cons (p : String × ℚ) (l : List (String × ℚ)) (k : String) :
    ledgerGet (p :: l) k = if p.1 = k then p.2 else ledgerGet l k := by
  by_cases h : p.1 = k <;> simp [ledgerGet, List.find?_cons, h]

theorem ledgerGet_ledgerSet_self (l : List (String × ℚ)) (k : String) (v : ℚ) :
    ledgerGet (ledgerSet l k v) k = v := by
  induction l with
  | nil => simp [ledgerSet, ledgerGet, List.find?]
  | cons p rest ih =>
      by_cases h : p.1 = k
      · simp [ledgerSet, h, ledgerGet_cons]
      · simp [ledgerSet, h, ledgerGet_cons, ih]

theorem ledgerGet_ledgerSet_other (l : List (String × ℚ)) (k k' : String) (v : ℚ)
    (h : k' ≠ k) :
    ledgerGet (ledgerSet l k v) k' = ledgerGet l k' := by
  induction l with
  | nil => simp [ledgerSet, ledgerGet_cons, ledgerGet, Ne.symm h, List.find?]
  | cons p rest ih =>
      by_cases hp : p.1 = k
      · subst hp
        simp [ledgerSet, ledgerGet_cons, Ne.symm h]
      · simp [ledgerSet, hp, ledgerGet_cons, ih]

theorem getTodaySpent_increment_self (w : Wallet) (today : String) (x : ℚ) :
    AgentWallet.getTodaySpentFromLedger (AgentWallet.incrementTodaySpend w today x) today
      = AgentWallet.getTodaySpentFromLedger w today + x := by
  simp [AgentWallet.getTodaySpentFromLedger, AgentWallet.incrementTodaySpend,
        ledgerGet_ledgerSet_self]

theorem getTodaySpent_increment_other (w : Wallet) (today d : String) (x : ℚ)
    (h : d ≠ today) :
    AgentWallet.getTodaySpentFromLedger (AgentWallet.incrementTodaySpend w today x) d
      = AgentWallet.getTodaySpentFromLedger w d := by
  simp [AgentWallet.getTodaySpentFromLedger, AgentWallet.incrementTodaySpend,
        ledgerGet_ledgerSet_other _ _ _ _ h]

/-! ## Claims about AgentWallet.sendSOL -/

/-- C1: with a per-transfer limit configured (`maxPerTransfer > 0`) and an
amount strictly above it, `sendSOL` throws the per-transfer `PolicyError`
with zero network invocations, an unchanged transaction history and an
unchanged spend ledger (the wallet state is returned untouched). -/
theorem sendSOL_perTxLimit_rejects_before_network (w : Wallet)
    (today toAddress : String) (amountSOL : ℚ) (submit : Except String String)
    (hmax : 0 < w.maxSpendPerTx) (hamt : w.maxSpendPerTx < amountSOL) :
    AgentWallet.sendSOL w today toAddress amountSOL submit
      = (Except.error AgentWallet.SendErr.perTxLimit, w, 0)
    ∧ AgentWallet.SendErr.perTxLimit.isPolicy = true := by
  constructor
  · simp [AgentWallet.sendSOL, hmax, hamt]
  · rfl

theorem sendSOL_perTxLimit_rejects_before_network_witness :
    (0 : ℚ) < 5 ∧ (5 : ℚ) < 8 ∧
    AgentWallet.sendSOL ⟨5, 0, [], []⟩ "2024-01-01" "pool" 8 (Except.ok "sig")
      = (Except.error AgentWallet.SendErr.perTxLimit, ⟨5, 0, [], []⟩, 0) :=
  ⟨by decide, by decide,
   (sendSOL_perTxLimit_rejects_before_network ⟨5, 0, [], []⟩ "2024-01-01" "pool" 8
     (Except.ok "sig") (by decide) (by decide)).1⟩

/-- C8: when both policy checks pass and the network submission throws,
`sendSOL` appends exactly one `failed` `TransactionRecord` carrying the
error, rethrows the error to the caller, and leaves the spend ledger (hence
the persisted daily spend) unchanged; exactly one network invocation was
made. -/
theorem sendSOL_failed_submission_no_ledger_increment (w : Wallet)
    (today toAddress : String) (amountSOL : ℚ) (msg : String)
    (hp1 : ¬(w.maxSpendPerTx > 0 ∧ amountSOL > w.maxSpendPerTx))
    (hp2 : ¬(w.maxDailySpend > 0 ∧
        AgentWallet.getTodaySpentFromLedger w today + amountSOL > w.maxDailySpend)) :
    AgentWallet.sendSOL w today toAddress amountSOL (Except.error msg)
      = (Except.error (AgentWallet.SendErr.network msg),
         { w with txHistory := w.txHistory ++
             [{ signature := "", type := TxType.SOL_TRANSFER, amount := amountSOL,
                toAddr := toAddress, status := TxStatus.failed, error := some msg }] },
         1) := by
  simp [AgentWallet.sendSOL, hp1, hp2]

theorem sendSOL_failed_submission_no_ledger_increment_witness :
    ¬((⟨5, 0, [], []⟩ : Wallet).maxSpendPerTx > 0 ∧ (3 : ℚ) > (⟨5, 0, [], []⟩ : Wallet).maxSpendPerTx) ∧
    ¬((⟨5, 0, [], []⟩ : Wallet).maxDailySpend > 0 ∧
        AgentWallet.getTodaySpentFromLedger ⟨5, 0, [], []⟩ "2024-01-01" + (3 : ℚ)
          > (⟨5, 0, [], []⟩ : Wallet).maxDailySpend) ∧
    AgentWallet.sendSOL ⟨5, 0, [], []⟩ "2024-01-01" "pool" 3 (Except.error "net down")
      = (Except.error (AgentWallet.SendErr.network "net down"),
         ⟨5, 0, [],
          [{ signature := "", type := TxType.SOL_TRANSFER, amount := 3,
             toAddr := "pool", status := TxStatus.failed, error := some "net down" }]⟩,
         1) :=
  ⟨by decide, by decide,
   sendSOL_failed_submission_no_ledger_increment ⟨5, 0, [], []⟩ "2024-01-01" "pool" 3
     "net down" (by decide) (by decide)⟩

/-- C9: `getSOLBalance` returns the first successful read among at most 3
attempts, sleeping 200ms, 400ms, 800ms after the successive failures, and
surfaces the last failure only after all 3 attempts fail. -/
theorem getSOLBalance_retries_three_with_backoff (conn : Nat → Except String ℚ) :
    (∀ v, conn 0 = Except.ok v →
       AgentWallet.getSOLBalance conn = (Except.ok v, [])) ∧
    (∀ e0 v, conn 0 = Except.error e0 → conn 1 = Except.ok v →
       AgentWallet.getSOLBalance conn = (Except.ok v, [200])) ∧
    (∀ e0 e1 v, conn 0 = Except.error e0 → conn 1 = Except.error e1 →
       conn 2 = Except.ok v →
       AgentWallet.getSOLBalance conn = (Except.ok v, [200, 400])) ∧
    (∀ e0 e1 e2, conn 0 = Except.error e0 → conn 1 = Except.error e1 →
       conn 2 = Except.error e2 →
       AgentWallet.getSOLBalance conn = (Except.error e2, [200, 400, 800])) := by
  refine ⟨fun v h0 => ?_, fun e0 v h0 h1 => ?_, fun e0 e1 v h0 h1 h2 => ?_,
          fun e0 e1 e2 h0 h1 h2 => ?_⟩
  · simp [AgentWallet.getSOLBalance, AgentWallet.balanceLoop, h0]
  · simp [AgentWallet.getSOLBalance, AgentWallet.balanceLoop, h0, h1]
  · simp [AgentWallet.getSOLBalance, AgentWallet.balanceLoop, h0, h1, h2]
  · simp [AgentWallet.getSOLBalance, AgentWallet.balanceLoop, h0, h1, h2]

theorem getSOLBalance_retries_three_with_backoff_witness :
    (fun _ => (Except.error "boom" : Except String ℚ)) 0 = Except.error "boom" ∧
    AgentWallet.getSOLBalance (fun _ => Except.error "boom")
      = (Except.error "boom", [200, 400, 800]) :=
  ⟨rfl, (getSOLBalance_retries_three_with_backoff (fun _ => Except.error "boom")).2.2.2
          "boom" "boom" "boom" rfl rfl rfl⟩

/-- C10: `SimulatedDex.sell` returns `null`, makes no wallet invocation (the
wrapped wallet — history and ledger included — is returned untouched with a
zero call count), yet increments `tradeCount` by 1 and `totalSellVolume` by
the amount, which `getStats` then reports. -/
theorem simulatedDex_sell_moves_no_funds (d : DexState) (w : Wallet) (amountSOL : ℚ) :
    SimulatedDex.sell d w amountSOL
      = (none,
         { d with totalSellVolume := d.totalSellVolume + amountSOL,
                  tradeCount := d.tradeCount + 1 },
         w, 0)
    ∧ SimulatedDex.getStats
        { d with totalSellVolume := d.totalSellVolume + amountSOL,
                 tradeCount := d.tradeCount + 1 }
      = (d.tradeCount + 1, d.totalBuyVolume, d.totalSellVolume + amountSOL,
         d.totalBuyVolume - (d.totalSellVolume + amountSOL)) :=
  ⟨rfl, rfl⟩

/-- A successful `sendSOL`: both policy checks pass and submission returns a
signature, so a `confirmed` record is appended and the day's ledger entry is
incremented. -/
theorem sendSOL_ok (w : Wallet) (today toAddress : String) (a : ℚ) (sig : String)
    (h1 : ¬(w.maxSpendPerTx > 0 ∧ a > w.maxSpendPerTx))
    (h2 : ¬(w.maxDailySpend > 0 ∧
        AgentWallet.getTodaySpentFromLedger w today + a > w.maxDailySpend)) :
    AgentWallet.sendSOL w today toAddress a (Except.ok sig)
      = (Except.ok sig,
         AgentWallet.incrementTodaySpend
           { w with txHistory := w.txHistory ++
               [{ signature := sig, type := TxType.SOL_TRANSFER, amount := a,
                  toAddr := toAddress, status := TxStatus.confirmed, error := none }] }
           today a,
         1) := by
  simp [AgentWallet.sendSOL, h1, h2]

/-- Executing a list of positive transfers, each within the per-transfer
limit and jointly within the day's remaining headroom, succeeds transfer by
transfer and adds exactly their sum to the day's ledger entry, leaving the
limit configuration and every other day's entry untouched. -/
theorem runTransfers_within_cap (today toAddress : String) (amounts : List ℚ) :
    ∀ w : Wallet,
      (∀ x ∈ amounts, 0 < x) →
      (∀ x ∈ amounts, 0 < w.maxSpendPerTx → x ≤ w.maxSpendPerTx) →
      AgentWallet.getTodaySpentFromLedger w today + amounts.sum ≤ w.maxDailySpend →
      ∃ w', AgentWallet.runTransfers today toAddress w amounts = some w'
        ∧ w'.maxSpendPerTx = w.maxSpendPerTx
        ∧ w'.maxDailySpend = w.maxDailySpend
        ∧ AgentWallet.getTodaySpentFromLedger w' today
            = AgentWallet.getTodaySpentFromLedger w today + amounts.sum
        ∧ ∀ d, d ≠ today → AgentWallet.getTodaySpentFromLedger w' d
            = AgentWallet.getTodaySpentFromLedger w d := by
  induction amounts with
  | nil =>
      intro w _ _ _
      exact ⟨w, rfl, rfl, rfl, by simp, fun d _ => rfl⟩
  | cons a rest ih =>
      intro w hpos hper hcap
      have ha : 0 < a := hpos a (List.mem_cons_self a rest)
      have hrest0 : 0 ≤ rest.sum :=
        List.sum_nonneg (fun x hx => le_of_lt (hpos x (List.mem_cons_of_mem a hx)))
      have hsums : (a :: rest).sum = a + rest.sum := List.sum_cons
      have hle : AgentWallet.getTodaySpentFromLedger w today + a ≤ w.maxDailySpend := by
        rw [hsums] at hcap
        linarith
      have h1 : ¬(w.maxSpendPerTx > 0 ∧ a > w.maxSpendPerTx) := by
        rintro ⟨hp, hgt⟩
        exact absurd (hper a (List.mem_cons_self a rest) hp) (not_le.mpr hgt)
      have h2 : ¬(w.maxDailySpend > 0 ∧
          AgentWallet.getTodaySpentFromLedger w today + a > w.maxDailySpend) := by
        rintro ⟨_, hgt⟩
        exact absurd hle (not_le.mpr hgt)
      have hsend := sendSOL_ok w today toAddress a "sig" h1 h2
      have hrun : AgentWallet.runTransfers today toAddress w (a :: rest)
          = AgentWallet.runTransfers today toAddress
              (AgentWallet.incrementTodaySpend
                { w with txHistory := w.txHistory ++
                    [{ signature := "sig", type := TxType.SOL_TRANSFER, amount := a,
                       toAddr := toAddress, status := TxStatus.confirmed, error := none }] }
                today a)
              rest := by
        simp [AgentWallet.runTransfers, hsend]
      have hw1today : AgentWallet.getTodaySpentFromLedger
          (AgentWallet.incrementTodaySpend
            { w with txHistory := w.txHistory ++
                [{ signature := "sig", type := TxType.SOL_TRANSFER, amount := a,
                   toAddr := toAddress, status := TxStatus.confirmed, error := none }] }
            today a) today
          = AgentWallet.getTodaySpentFromLedger w today + a := by
        rw [getTodaySpent_increment_self]
        rfl
      have hw1other : ∀ d, d ≠ today → AgentWallet.getTodaySpentFromLedger
          (AgentWallet.incrementTodaySpend
            { w with txHistory := w.txHistory ++
                [{ signature := "sig", type := TxType.SOL_TRANSFER, amount := a,
                   toAddr := toAddress, status := TxStatus.confirmed, error := none }] }
            today a) d
          = AgentWallet.getTodaySpentFromLedger w d := by
        intro d hd
        rw [getTodaySpent_increment_other _ _ _ _ hd]
        rfl
      obtain ⟨w', hrun', hper', hday', htoday', hother'⟩ :=
        ih (AgentWallet.incrementTodaySpend
              { w with txHistory := w.txHistory ++
                  [{ signature := "sig", type := TxType.SOL_TRANSFER, amount := a,
                     toAddr := toAddress, status := TxStatus.confirmed, error := none }] }
              today a)
          (fun x hx => hpos x (List.mem_cons_of_mem a hx))
          (fun x hx hp => hper x (List.mem_cons_of_mem a hx) hp)
          (by rw [hw1today]
              show AgentWallet.getTodaySpentFromLedger w today + a + rest.sum
                ≤ w.maxDailySpend
              rw [hsums] at hcap
              linarith)
      refine ⟨w', hrun.trans hrun', hper', hday', ?_, ?_⟩
      · rw [htoday', hw1today, hsums]
        ring
      · intro d hd
        rw [hother' d hd, hw1other d hd]

/-- C2 counterexample: with no per-transfer limit and `maxDailyTotal = 1`,
the single transfer `[1]` (N = 1, sum exactly the cap) succeeds; the next
transfer, of amount 2, fails the same day with the daily-cap `PolicyError`;
the next calendar day has no spend recorded — yet the same transfer of 2
fails again, because its amount alone exceeds `maxDailyTotal`, contradicting
the claim that it succeeds on the next day. -/
theorem daily_cap_nextday_counterexample :
    AgentWallet.runTransfers "2024-01-01" "pool" ⟨0, 1, [], []⟩ [1]
      = some ⟨0, 1, [("2024-01-01", 1)],
              [{ signature := "sig", type := TxType.SOL_TRANSFER, amount := 1,
                 toAddr := "pool", status := TxStatus.confirmed, error := none }]⟩
    ∧ (AgentWallet.sendSOL
         ⟨0, 1, [("2024-01-01", 1)],
          [{ signature := "sig", type := TxType.SOL_TRANSFER, amount := 1,
             toAddr := "pool", status := TxStatus.confirmed, error := none }]⟩
         "2024-01-01" "pool" 2 (Except.ok "sig")).1
        = Except.error AgentWallet.SendErr.dailyLimit
    ∧ AgentWallet.getTodaySpentFromLedger
        ⟨0, 1, [("2024-01-01", 1)],
         [{ signature := "sig", type := TxType.SOL_TRANSFER, amount := 1,
            toAddr := "pool", status := TxStatus.confirmed, error := none }]⟩
        "2024-01-02" = 0
    ∧ (AgentWallet.sendSOL
         ⟨0, 1, [("2024-01-01", 1)],
          [{ signature := "sig", type := TxType.SOL_TRANSFER, amount := 1,
             toAddr := "pool", status := TxStatus.confirmed, error := none }]⟩
         "2024-01-02" "pool" 2 (Except.ok "sig")).1
        = Except.error AgentWallet.SendErr.dailyLimit := by
  refine ⟨?_, ?_, ?_, ?_⟩
  · norm_num [AgentWallet.runTransfers, AgentWallet.sendSOL,
              AgentWallet.getTodaySpentFromLedger, AgentWallet.incrementTodaySpend,
              ledgerGet, ledgerSet, List.find?]
  · simp only [AgentWallet.sendSOL, AgentWallet.getTodaySpentFromLedger,
               ledgerGet, List.find?, String.reduceEq]
    norm_num
  · simp [AgentWallet.getTodaySpentFromLedger, ledgerGet, List.find?]
  · simp only [AgentWallet.sendSOL, AgentWallet.getTodaySpentFromLedger,
               ledgerGet, List.find?, String.reduceEq]
    norm_num

/-- C2 (amended): for an agent with a daily cap `maxDailyTotal > 0`, no spend
recorded yet for the day, and positive transfer amounts each within the
per-transfer limit (when one is set): the sequence of confirmed transfers
whose amounts sum to exactly `maxDailyTotal` all succeed; afterwards any
further positive transfer on the same day fails with a `PolicyError` and
leaves the wallet unchanged; and on the next calendar day (no prior spend
recorded for it) the same transfer succeeds **provided its amount is within
the per-transfer limit (when set) and at most `maxDailyTotal`** — the proviso
the counterexample forces. -/
theorem daily_cap_sequence_amended (w : Wallet) (today nextDay toAddress : String)
    (amounts : List ℚ)
    (hcap : 0 < w.maxDailySpend)
    (hzero : AgentWallet.getTodaySpentFromLedger w today = 0)
    (hpos : ∀ x ∈ amounts, 0 < x)
    (hper : ∀ x ∈ amounts, 0 < w.maxSpendPerTx → x ≤ w.maxSpendPerTx)
    (hsum : amounts.sum = w.maxDailySpend)
    (hday : nextDay ≠ today)
    (hnext : AgentWallet.getTodaySpentFromLedger w nextDay = 0) :
    ∃ w', AgentWallet.runTransfers today toAddress w amounts = some w'
      ∧ AgentWallet.getTodaySpentFromLedger w' today = w.maxDailySpend
      ∧ (∀ a, 0 < a → ∃ e : AgentWallet.SendErr, e.isPolicy = true
           ∧ AgentWallet.sendSOL w' today toAddress a (Except.ok "sig")
               = (Except.error e, w', 0))
      ∧ (∀ a, 0 < a → a ≤ w.maxDailySpend →
           (0 < w.maxSpendPerTx → a ≤ w.maxSpendPerTx) →
           (AgentWallet.sendSOL w' nextDay toAddress a (Except.ok "sig")).1
             = Except.ok "sig") := by
  obtain ⟨w', hrun, hperEq, hdayEq, htoday, hother⟩ :=
    runTransfers_within_cap today toAddress amounts w hpos hper
      (by rw [hzero, hsum, zero_add])
  have htoday' : AgentWallet.getTodaySpentFromLedger w' today = w.maxDailySpend := by
    rw [htoday, hzero, hsum, zero_add]
  refine ⟨w', hrun, htoday', ?_, ?_⟩
  · intro a ha
    by_cases hc : w'.maxSpendPerTx > 0 ∧ a > w'.maxSpendPerTx
    · exact ⟨AgentWallet.SendErr.perTxLimit, rfl, by simp [AgentWallet.sendSOL, hc]⟩
    · refine ⟨AgentWallet.SendErr.dailyLimit, rfl, ?_⟩
      have hcond : w'.maxDailySpend > 0 ∧
          AgentWallet.getTodaySpentFromLedger w' today + a > w'.maxDailySpend := by
        refine ⟨by rw [hdayEq]; exact hcap, ?_⟩
        rw [htoday', hdayEq]
        linarith
      simp [AgentWallet.sendSOL, hc, hcond]
  · intro a ha hale haper
    have h1 : ¬(w'.maxSpendPerTx > 0 ∧ a > w'.maxSpendPerTx) := by
      rintro ⟨hp, hgt⟩
      rw [hperEq] at hp hgt
      exact absurd (haper hp) (not_le.mpr hgt)
    have h2 : ¬(w'.maxDailySpend > 0 ∧
        AgentWallet.getTodaySpentFromLedger w' nextDay + a > w'.maxDailySpend) := by
      rintro ⟨_, hgt⟩
      rw [hother nextDay hday, hnext, hdayEq, zero_add] at hgt
      exact absurd hale (not_le.mpr hgt)
    rw [sendSOL_ok w' nextDay toAddress a "sig" h1 h2]

theorem daily_cap_sequence_amended_witness :
    (0 : ℚ) < (⟨0, 3, [], []⟩ : Wallet).maxDailySpend ∧
    AgentWallet.getTodaySpentFromLedger ⟨0, 3, [], []⟩ "2024-01-01" = 0 ∧
    (∀ x ∈ ([1, 2] : List ℚ), 0 < x) ∧
    (∀ x ∈ ([1, 2] : List ℚ),
       0 < (⟨0, 3, [], []⟩ : Wallet).maxSpendPerTx →
       x ≤ (⟨0, 3, [], []⟩ : Wallet).maxSpendPerTx) ∧
    ([1, 2] : List ℚ).sum = (⟨0, 3, [], []⟩ : Wallet).maxDailySpend ∧
    ("2024-01-02" : String) ≠ "2024-01-01" ∧
    AgentWallet.getTodaySpentFromLedger ⟨0, 3, [], []⟩ "2024-01-02" = 0 ∧
    (∃ w', AgentWallet.runTransfers "2024-01-01" "pool" ⟨0, 3, [], []⟩ [1, 2] = some w'
      ∧ AgentWallet.getTodaySpentFromLedger w' "2024-01-01"
          = (⟨0, 3, [], []⟩ : Wallet).maxDailySpend
      ∧ (∀ a, 0 < a → ∃ e : AgentWallet.SendErr, e.isPolicy = true
           ∧ AgentWallet.sendSOL w' "2024-01-01" "pool" a (Except.ok "sig")
               = (Except.error e, w', 0))
      ∧ (∀ a, 0 < a → a ≤ (⟨0, 3, [], []⟩ : Wallet).maxDailySpend →
           (0 < (⟨0, 3, [], []⟩ : Wallet).maxSpendPerTx →
             a ≤ (⟨0, 3, [], []⟩ : Wallet).maxSpendPerTx) →
           (AgentWallet.sendSOL w' "2024-01-02" "pool" a (Except.ok "sig")).1
             = Except.ok "sig")) :=
  ⟨by decide, rfl, by decide, by decide, by norm_num, by decide, rfl,
   daily_cap_sequence_amended ⟨0, 3, [], []⟩ "2024-01-01" "2024-01-02" "pool" [1, 2]
     (by decide) rfl (by decide) (by decide) (by norm_num) (by decide) rfl⟩

/-! ## Claims about KeyManager -/

theorem dirGet_dirPut_self (d : KeyDir) (agentId : String) (blob : List Nat) :
    dirGet (dirPut d agentId blob) agentId = some blob := by
  induction d with
  | nil => simp [dirPut, dirGet, List.find?]
  | cons p rest ih =>
      by_cases h : p.1 = agentId
      · simp [dirPut, h, dirGet, List.find?_cons]
      · simp only [dirPut, if_neg h]
        simp [dirGet, List.find?_cons, h] at ih ⊢
        exact ih

/-- The slices `loadKey` takes out of a blob written by `storeKey` are the
original iv, tag, and ciphertext (file layout `iv(16) | authTag(16) | ct`). -/
theorem stored_blob_slices (iv tag ct : List Nat)
    (hiv : iv.length = 16) (htag : tag.length = 16) :
    (iv ++ tag ++ ct).take 16 = iv
    ∧ ((iv ++ tag ++ ct).drop 16).take 16 = tag
    ∧ ((iv ++ tag ++ ct).drop 16).drop 16 = ct := by
  have h1 : (iv ++ tag ++ ct).take 16 = iv := by
    rw [List.append_assoc, ← hiv, List.take_left]
  have h2 : (iv ++ tag ++ ct).drop 16 = tag ++ ct := by
    rw [List.append_assoc, ← hiv, List.drop_left]
  refine ⟨h1, ?_, ?_⟩
  · rw [h2, ← htag, List.take_left]
  · rw [h2, ← htag, List.drop_left]

/-- C6: storing a credential's private material and loading it back under the
same secret recovers it byte-identically (for any cipher satisfying the
AES-GCM contract, any prior key directory, and any fresh 16-byte iv). -/
theorem storeKey_loadKey_roundtrip {K : Type} (C : CryptoPrimitives K)
    (secret : String) (dir : KeyDir) (agentId : String) (iv privateKeyBytes : List Nat)
    (hiv : iv.length = 16) :
    KeyManager.loadKey C (KeyManager.deriveEncryptionKey C secret)
        (KeyManager.storeKey C (KeyManager.deriveEncryptionKey C secret)
          dir agentId iv privateKeyBytes)
        agentId
      = Except.ok privateKeyBytes := by
  set key := KeyManager.deriveEncryptionKey C secret with hkey
  obtain ⟨h1, h2, h3⟩ :=
    stored_blob_slices iv (C.encrypt key iv privateKeyBytes).2
      (C.encrypt key iv privateKeyBytes).1 hiv (C.tag_length key iv privateKeyBytes)
  simp only [KeyManager.loadKey, KeyManager.storeKey, dirGet_dirPut_self,
             h1, h2, h3, C.decrypt_encrypt key iv privateKeyBytes]

theorem storeKey_loadKey_roundtrip_witness :
    (List.replicate 16 0).length = 16 ∧
    KeyManager.loadKey toyCrypto (KeyManager.deriveEncryptionKey toyCrypto "test-secret")
        (KeyManager.storeKey toyCrypto (KeyManager.deriveEncryptionKey toyCrypto "test-secret")
          [] "agent-x" (List.replicate 16 0) [7, 7, 7])
        "agent-x"
      = Except.ok [7, 7, 7] :=
  ⟨by decide,
   storeKey_loadKey_roundtrip toyCrypto "test-secret" [] "agent-x"
     (List.replicate 16 0) [7, 7, 7] (by decide)⟩

/-- C7: a credential stored under secret `s1` and loaded by a `KeyManager`
keyed by a secret `s2` whose derived key differs (SHA-256 digests differ, the
standard collision-freeness reading of `s1 ≠ s2`) fails with the
authentication-tag `IntegrityError`, never returning a credential. -/
theorem loadKey_wrong_secret_integrity {K : Type} (C : CryptoPrimitives K)
    (s1 s2 : String) (dir : KeyDir) (agentId : String) (iv privateKeyBytes : List Nat)
    (hiv : iv.length = 16) (hkeys : C.sha256 s1 ≠ C.sha256 s2) :
    KeyManager.loadKey C (KeyManager.deriveEncryptionKey C s2)
        (KeyManager.storeKey C (KeyManager.deriveEncryptionKey C s1)
          dir agentId iv privateKeyBytes)
        agentId
      = Except.error KeyManager.KeyErr.integrity := by
  obtain ⟨h1, h2, h3⟩ :=
    stored_blob_slices iv (C.encrypt (C.sha256 s1) iv privateKeyBytes).2
      (C.encrypt (C.sha256 s1) iv privateKeyBytes).1 hiv
      (C.tag_length (C.sha256 s1) iv privateKeyBytes)
  simp only [KeyManager.loadKey, KeyManager.storeKey, KeyManager.deriveEncryptionKey,
             dirGet_dirPut_self, h1, h2, h3,
             C.auth_fails (C.sha256 s1) (C.sha256 s2) iv privateKeyBytes hkeys]

theorem loadKey_wrong_secret_integrity_witness :
    (List.replicate 16 0).length = 16 ∧
    toyCrypto.sha256 "a" ≠ toyCrypto.sha256 "bb" ∧
    KeyManager.loadKey toyCrypto (KeyManager.deriveEncryptionKey toyCrypto "bb")
        (KeyManager.storeKey toyCrypto (KeyManager.deriveEncryptionKey toyCrypto "a")
          [] "agent-x" (List.replicate 16 0) [7, 7, 7])
        "agent-x"
      = Except.error KeyManager.KeyErr.integrity :=
  ⟨by decide, by decide,
   loadKey_wrong_secret_integrity toyCrypto "a" "bb" [] "agent-x"
     (List.replicate 16 0) [7, 7, 7] (by decide) (by decide)⟩

/-! ## Claims about the BaseAgent decision loop -/

/-- C5: when a balance floor is configured (`minBalance > 0`) and the balance
read at the start of a cycle is strictly below it, `runCycle` moves the loop
to `paused`, emits `paused` / logs `balance_paused`, invokes none of the
observe/think(decide)/act hooks, and does not reschedule the timer (the
`timerArmed` field is left exactly as it was). -/
theorem runCycle_low_balance_pauses (a : Agent) (env : CycleEnv) (b : ℚ)
    (hs1 : a.state ≠ AgentState.stopped) (hs2 : a.state ≠ AgentState.paused)
    (hmin : 0 < env.minBalance) (hbal : env.balance = Except.ok b)
    (hlow : b < env.minBalance) :
    BaseAgent.runCycle a env
      = ⟨{ a with
            cycleCount := a.cycleCount + 1, state := AgentState.paused,
            emitted := a.emitted ++ [Ev.cycle_start, Ev.pausedEv],
            logged := a.logged ++ [Ev.cycle_start, Ev.balance_paused] },
         false, false, false⟩ := by
  simp [BaseAgent.runCycle, hs1, hs2, hmin, hbal, hlow]

theorem runCycle_low_balance_pauses_witness :
    (initAgent none).state ≠ AgentState.stopped ∧
    (initAgent none).state ≠ AgentState.paused ∧
    (0 : ℚ) < 1 ∧
    ({ minBalance := 1, balance := Except.ok 0, observeResult := Except.ok (),
       thinkResult := Except.ok none, actResult := Except.ok () } : CycleEnv).balance
      = Except.ok 0 ∧
    (0 : ℚ) < 1 ∧
    BaseAgent.runCycle (initAgent none)
        { minBalance := 1, balance := Except.ok 0, observeResult := Except.ok (),
          thinkResult := Except.ok none, actResult := Except.ok () }
      = ⟨{ initAgent none with
            cycleCount := 1, state := AgentState.paused,
            emitted := [Ev.cycle_start, Ev.pausedEv],
            logged := [Ev.cycle_start, Ev.balance_paused] },
         false, false, false⟩ := by
  refine ⟨by decide, by decide, by decide, rfl, by decide, ?_⟩
  have h := runCycle_low_balance_pauses (initAgent none)
    { minBalance := 1, balance := Except.ok 0, observeResult := Except.ok (),
      thinkResult := Except.ok none, actResult := Except.ok () }
    0 (by decide) (by decide) (by decide) rfl (by decide)
  simpa [initAgent] using h

/-- C3: the claim states that `stopped` is terminal — every later sequence of
`pause()`, `resume()`, `start()` leaves a stopped loop stopped and never runs
another cycle.  The code violates this: `pause()` does not guard against the
`stopped` state, so `stop(); pause(); resume()` leaves the loop `idle` with a
re-armed timer, and the next timer firing runs a full further cycle
(`cycleCount` increments).  `start()` on a stopped loop does throw, as
claimed.  This contradicts the source's own doc comment on `stop()`
("Permanently stop") and the error text "Agent is stopped, cannot restart". -/
theorem stopped_escaped_by_pause_resume :
    (BaseAgent.stop (initAgent none)).state = AgentState.stopped ∧
    BaseAgent.start (BaseAgent.stop (initAgent none))
      = Except.error "Agent is stopped, cannot restart" ∧
    (BaseAgent.pause (BaseAgent.stop (initAgent none))).state = AgentState.paused ∧
    (BaseAgent.resume (BaseAgent.pause (BaseAgent.stop (initAgent none)))).state
      = AgentState.idle ∧
    (BaseAgent.resume (BaseAgent.pause (BaseAgent.stop (initAgent none)))).timerArmed
      = true ∧
    (BaseAgent.fire benignEnv
        (BaseAgent.resume (BaseAgent.pause (BaseAgent.stop (initAgent none))))).cycleCount
      = (BaseAgent.stop (initAgent none)).cycleCount + 1 := by
  decide

theorem fire_not_armed (env : CycleEnv) (a : Agent) (h : a.timerArmed = false) :
    BaseAgent.fire env a = a := by
  simp [BaseAgent.fire, h]

theorem fireN_not_armed (env : CycleEnv) (a : Agent) (h : a.timerArmed = false) :
    ∀ n, BaseAgent.fireN env n a = a := by
  intro n
  induction n with
  | zero => rfl
  | succ n ih => simp [BaseAgent.fireN, ih, fire_not_armed env a h]

theorem fireN_add (env : CycleEnv) (m n : Nat) (a : Agent) :
    BaseAgent.fireN env (m + n) a = BaseAgent.fireN env n (BaseAgent.fireN env m a) := by
  induction n with
  | zero => rfl
  | succ n ih => simp [BaseAgent.fireN, ih]

/-- One benign timer firing on a running agent with `maxCycles = k`: the cycle
counter increments, and the agent stops exactly when the incremented counter
reaches `k`, otherwise stays idle with the timer re-armed. -/
theorem fire_benign_step (a : Agent) (k : Nat) (hmax : a.maxCycles = some k)
    (hstate : a.state = AgentState.idle) (harm : a.timerArmed = true) :
    ((BaseAgent.fire benignEnv a).state
       = if k ≤ a.cycleCount + 1 then AgentState.stopped else AgentState.idle)
    ∧ (BaseAgent.fire benignEnv a).cycleCount = a.cycleCount + 1
    ∧ ((BaseAgent.fire benignEnv a).timerArmed
       = if k ≤ a.cycleCount + 1 then false else true)
    ∧ (BaseAgent.fire benignEnv a).maxCycles = some k := by
  by_cases hk : k ≤ a.cycleCount + 1 <;>
    simp [BaseAgent.fire, BaseAgent.runCycle, benignEnv, BaseAgent.finishCycle,
          BaseAgent.scheduleNextCycle, BaseAgent.cyclesExhausted, BaseAgent.stop,
          hmax, hstate, harm, hk]

/-- Invariant of the benign run out of `start`: before the `k`-th firing the
loop is idle with the timer armed and `cycleCount = j`; at the `k`-th it is
stopped with `cycleCount = k` and no pending timer. -/
theorem fireN_benign_invariant (k : Nat) (hk : 1 ≤ k) (a1 : Agent)
    (hmax : a1.maxCycles = some k) (hstate : a1.state = AgentState.idle)
    (hcount : a1.cycleCount = 0) (harm : a1.timerArmed = true) :
    ∀ j, j ≤ k →
      (j < k → (BaseAgent.fireN benignEnv j a1).state = AgentState.idle
             ∧ (BaseAgent.fireN benignEnv j a1).cycleCount = j
             ∧ (BaseAgent.fireN benignEnv j a1).timerArmed = true
             ∧ (BaseAgent.fireN benignEnv j a1).maxCycles = some k)
      ∧ (j = k → (BaseAgent.fireN benignEnv j a1).state = AgentState.stopped
             ∧ (BaseAgent.fireN benignEnv j a1).cycleCount = k
             ∧ (BaseAgent.fireN benignEnv j a1).timerArmed = false) := by
  intro j
  induction j with
  | zero =>
      intro _
      refine ⟨fun _ => ⟨hstate, hcount, harm, hmax⟩, fun h0 => absurd h0.symm (by omega)⟩
  | succ j ih =>
      intro hjk
      obtain ⟨ihlt, _⟩ := ih (by omega)
      obtain ⟨hst, hcnt, hrm, hmx⟩ := ihlt (by omega)
      have hstep := fire_benign_step (BaseAgent.fireN benignEnv j a1) k hmx hst hrm
      rw [hcnt] at hstep
      constructor
      · intro hlt
        have hnk : ¬ k ≤ j + 1 := by omega
        refine ⟨?_, ?_, ?_, hstep.2.2.2⟩
        · rw [show BaseAgent.fireN benignEnv (j + 1) a1
                = BaseAgent.fire benignEnv (BaseAgent.fireN benignEnv j a1) from rfl,
              hstep.1, if_neg hnk]
        · rw [show BaseAgent.fireN benignEnv (j + 1) a1
                = BaseAgent.fire benignEnv (BaseAgent.fireN benignEnv j a1) from rfl,
              hstep.2.1]
        · rw [show BaseAgent.fireN benignEnv (j + 1) a1
                = BaseAgent.fire benignEnv (BaseAgent.fireN benignEnv j a1) from rfl,
              hstep.2.2.1, if_neg hnk]
      · intro heq
        have hyk : k ≤ j + 1 := by omega
        refine ⟨?_, ?_, ?_⟩
        · rw [show BaseAgent.fireN benignEnv (j + 1) a1
                = BaseAgent.fire benignEnv (BaseAgent.fireN benignEnv j a1) from rfl,
              hstep.1, if_pos hyk]
        · rw [show BaseAgent.fireN benignEnv (j + 1) a1
                = BaseAgent.fire benignEnv (BaseAgent.fireN benignEnv j a1) from rfl,
              hstep.2.1]
          omega
        · rw [show BaseAgent.fireN benignEnv (j + 1) a1
                = BaseAgent.fire benignEnv (BaseAgent.fireN benignEnv j a1) from rfl,
              hstep.2.2.1, if_pos hyk]

/-- C4: started with `maxCycles = k` (k ≥ 1), the loop completes exactly `k`
benign cycles: the first `k - 1` timer firings leave it idle with
`cycleCount = j` and the timer armed, the `k`-th leaves it `stopped` with
`cycleCount = k`, every firing after that changes nothing (no further cycle
runs), and a subsequent `start()` throws. -/
theorem maxCycles_stops_after_exactly_k (k : Nat) (hk : 1 ≤ k) :
    ∃ a1, BaseAgent.start (initAgent (some k)) = Except.ok a1 ∧
      (∀ j, j < k → (BaseAgent.fireN benignEnv j a1).state = AgentState.idle
                  ∧ (BaseAgent.fireN benignEnv j a1).cycleCount = j
                  ∧ (BaseAgent.fireN benignEnv j a1).timerArmed = true) ∧
      (BaseAgent.fireN benignEnv k a1).state = AgentState.stopped ∧
      (BaseAgent.fireN benignEnv k a1).cycleCount = k ∧
      (∀ m, k ≤ m → BaseAgent.fireN benignEnv m a1 = BaseAgent.fireN benignEnv k a1) ∧
      BaseAgent.start (BaseAgent.fireN benignEnv k a1)
        = Except.error "Agent is stopped, cannot restart" := by
  have hnk : ¬ ((0 : Nat) ≥ k) := by omega
  have key := fireN_benign_invariant k hk
    { state := AgentState.idle, cycleCount := 0, maxCycles := some k,
      timerArmed := true, emitted := [Ev.started], logged := [Ev.started] }
    rfl rfl rfl rfl
  refine ⟨{ state := AgentState.idle, cycleCount := 0, maxCycles := some k,
            timerArmed := true, emitted := [Ev.started], logged := [Ev.started] },
          ?_, ?_, ?_, ?_, ?_, ?_⟩
  · simp [BaseAgent.start, initAgent, BaseAgent.scheduleNextCycle,
          BaseAgent.cyclesExhausted, hnk]
  · intro j hj
    have h := (key j (by omega)).1 hj
    exact ⟨h.1, h.2.1, h.2.2.1⟩
  · exact ((key k le_rfl).2 rfl).1
  · exact ((key k le_rfl).2 rfl).2.1
  · intro m hm
    obtain ⟨n, rfl⟩ := Nat.exists_eq_add_of_le hm
    rw [fireN_add]
    exact fireN_not_armed benignEnv _ ((key k le_rfl).2 rfl).2.2 n
  · have hstop := ((key k le_rfl).2 rfl).1
    simp [BaseAgent.start, hstop]

theorem maxCycles_stops_after_exactly_k_witness :
    1 ≤ 2 ∧
    ∃ a1, BaseAgent.start (initAgent (some 2)) = Except.ok a1 ∧
      (∀ j, j < 2 → (BaseAgent.fireN benignEnv j a1).state = AgentState.idle
                  ∧ (BaseAgent.fireN benignEnv j a1).cycleCount = j
                  ∧ (BaseAgent.fireN benignEnv j a1).timerArmed = true) ∧
      (BaseAgent.fireN benignEnv 2 a1).state = AgentState.stopped ∧
      (BaseAgent.fireN benignEnv 2 a1).cycleCount = 2 ∧
      (∀ m, 2 ≤ m → BaseAgent.fireN benignEnv m a1 = BaseAgent.fireN benignEnv 2 a1) ∧
      BaseAgent.start (BaseAgent.fireN benignEnv 2 a1)
        = Except.error "Agent is stopped, cannot restart" :=
  ⟨by decide, maxCycles_stops_after_exactly_k 2 (by decide)⟩
